import Mathlib

/-!
Verification development for the mspikes streaming ARF reader and dispatcher.

We give a shallow embedding of the relevant parts of the source:

* `mspikes/modules/arf_io.py` — the timebase arithmetic (`data_offset`),
  windowing arithmetic (`time_series_offsets`), the jack-frame wraparound
  correction (`keyiter_jack_frame`), the dataset traversal
  (`arf_reader.iterdatasets`) and the chunk-emitting iterator
  (`arf_reader.__iter__`);
* `mspikes/modules/dispatcher.py` — the `parallel` fan-out wrapper;
* `mspikes/register.py` — the module-level chunk-id registry.

Python machine details that matter are modelled explicitly: `int()` / `long()`
truncate toward zero (`pyInt`), `round()` rounds half to even (`pyRound`),
numpy `uint32` / `uint64` arithmetic wraps modulo `2^32` / `2^64`, and a
value of `0` is falsy in `if start_time:` style tests.  Rationals stand for
Python numbers (entry keys, rates and offsets are integral or exact rational
values in every code path the claims exercise); fallible code returns
`Except`.
-/

/-- Python `int()` / `long()` applied to a rational: truncation toward zero. -/
def pyInt (q : ℚ) : ℤ := if 0 ≤ q then ⌊q⌋ else ⌈q⌉

/-- Python 2 `round()` on an exact rational: round half to even. -/
def pyRound (q : ℚ) : ℤ :=
  if q - ⌊q⌋ < 1/2 then ⌊q⌋
  else if 1/2 < q - ⌊q⌋ then ⌊q⌋ + 1
  else if ⌊q⌋ % 2 = 0 then ⌊q⌋ else ⌊q⌋ + 1

/-- `arf_io.data_offset(entry_time, entry_dt, dset_time=0, dset_dt=None)`.

Returns the offset of a dataset in seconds.  `dset_time` is first replaced by
`Fraction(int(dset_time), int(dset_dt))` when `dset_dt` is given.  When
`entry_dt` is `None` the result is the plain sum; otherwise `entry_time`
becomes `Fraction(long(entry_time), long(entry_dt))` and, when `dset_dt` is
`None`, the dataset time is rounded to the nearest entry sample; when both
rates are given the code raises `ValueError` unless the sum is a whole number
of entry-rate samples. -/
def data_offset (entry_time : ℚ) (entry_dt : Option ℚ) (dset_time : ℚ)
    (dset_dt : Option ℚ) : Except Unit ℚ :=
  let ds : ℚ := match dset_dt with
    | some dd => (pyInt dset_time : ℚ) / (pyInt dd : ℚ)
    | none => dset_time
  match entry_dt with
  | none => .ok (entry_time + ds)
  | some ed =>
    let et : ℚ := (pyInt entry_time : ℚ) / (pyInt ed : ℚ)
    match dset_dt with
    | none => .ok (et + (pyRound (ds * ed) : ℚ) / (pyInt ed : ℚ))
    | some _ =>
      let val := et + ds
      if (val * ed).den = 1 then .ok val else .error ()

theorem pyInt_intCast (m : ℤ) : pyInt (m : ℚ) = m := by
  unfold pyInt
  split <;> simp

theorem pyInt_zero : pyInt 0 = 0 := by
  simpa using pyInt_intCast 0

theorem pyInt_nonneg {q : ℚ} (h : 0 ≤ q) : 0 ≤ pyInt q := by
  unfold pyInt
  rw [if_pos h]
  exact Int.floor_nonneg.mpr h

theorem pyInt_nonpos {q : ℚ} (h : q ≤ 0) : pyInt q ≤ 0 := by
  unfold pyInt
  split
  · have hq : q = 0 := le_antisymm h (by assumption)
    simp [hq]
  · exact Int.ceil_le.mpr (by exact_mod_cast h)

theorem natCast_le_pyInt {q : ℚ} (n : ℕ) (h : (n : ℚ) ≤ q) : (n : ℤ) ≤ pyInt q := by
  have h0 : (0 : ℚ) ≤ q := le_trans (by positivity) h
  unfold pyInt
  rw [if_pos h0]
  exact Int.le_floor.mpr (by exact_mod_cast h)

theorem pyInt_le_natCast {q : ℚ} (n : ℕ) (h : q ≤ (n : ℚ)) : pyInt q ≤ (n : ℤ) := by
  unfold pyInt
  split
  · calc ⌊q⌋ ≤ ⌊(n : ℚ)⌋ := Int.floor_le_floor h
    _ = (n : ℤ) := Int.floor_natCast n
  · have hq0 : q ≤ 0 := le_of_not_le (by assumption)
    calc ⌈q⌉ ≤ (0 : ℤ) := Int.ceil_le.mpr (by exact_mod_cast hq0)
    _ ≤ (n : ℤ) := by positivity

/-- C4 (corrected): when both rates are given, `data_offset` is exact-or-fail
only on integer arguments; non-integer arguments are silently truncated by
`int()` / `long()` first.  On integer entry time `m`, entry rate `n`, dataset
offset `p` and dataset rate `q` it returns exactly `m/n + p/q` when that sum
is a whole number of entry-rate samples, and raises `ValueError` otherwise —
it never returns a rounded value there. -/
theorem data_offset_exact_or_error (m n p q : ℤ) (hn : n ≠ 0) (hq : q ≠ 0) :
    ((((m : ℚ)/n + (p : ℚ)/q) * n).den = 1 ∧
      data_offset (m : ℚ) (some (n : ℚ)) (p : ℚ) (some (q : ℚ)) =
        .ok ((m : ℚ)/n + (p : ℚ)/q)) ∨
    ((((m : ℚ)/n + (p : ℚ)/q) * n).den ≠ 1 ∧
      data_offset (m : ℚ) (some (n : ℚ)) (p : ℚ) (some (q : ℚ)) = .error ()) := by
  unfold data_offset
  simp only [pyInt_intCast]
  by_cases hden : ((((m : ℚ)/n + (p : ℚ)/q) * n).den = 1)
  · left
    refine ⟨hden, ?_⟩
    simp [hden]
  · right
    refine ⟨hden, ?_⟩
    simp [hden]

/-- Witness for C4's theorem at `m = 1, n = 2, p = 1, q = 2`:
the sum `1/2 + 1/2 = 1` is a whole number of entry samples. -/
theorem data_offset_exact_or_error_witness :
    ((((1 : ℚ)/2 + (1 : ℚ)/2) * 2).den = 1 ∧
      data_offset ((1 : ℤ) : ℚ) (some ((2 : ℤ) : ℚ)) ((1 : ℤ) : ℚ) (some ((2 : ℤ) : ℚ)) =
        .ok ((1 : ℚ)/2 + (1 : ℚ)/2)) ∨
    ((((1 : ℚ)/2 + (1 : ℚ)/2) * 2).den ≠ 1 ∧
      data_offset ((1 : ℤ) : ℚ) (some ((2 : ℤ) : ℚ)) ((1 : ℤ) : ℚ) (some ((2 : ℤ) : ℚ)) =
        .error ()) := by
  have h := data_offset_exact_or_error 1 2 1 2 (by decide) (by decide)
  simpa using h

/-- C4 counterexample: at the non-integer entry time `1/2` (entry rate 2,
dataset offset 1, dataset rate 2) the code returns `1/2` — the truncated
`long(1/2) = 0` entry part plus `1/2` — which is neither the exact sum
`(1/2)/2 + 1/2 = 3/4` nor an error. -/
theorem data_offset_truncates_counterexample :
    data_offset (1/2) (some 2) 1 (some 2) = .ok (1/2) ∧
      (1/2 : ℚ) ≠ (1/2 : ℚ)/2 + 1/2 := by
  constructor
  · unfold data_offset pyInt
    norm_num
  · norm_num

/-- numpy `uint32` subtraction `a - b` (overflow ignored): the difference
modulo `2^32`. -/
def u32sub (a b : ℕ) : ℕ := (a % 2^32 + (2^32 - b % 2^32)) % 2^32

/-- The accumulation loop of `arf_io.keyiter_jack_frame`: `frame` is a numpy
`uint64` accumulator, `last` the previous raw `uint32` `jack_frame` value;
each entry's key is `frame += current - last` computed in wrapping machine
arithmetic. -/
def jack_frame_walk (last frame : ℕ) : List ℕ → List ℕ
  | [] => []
  | r :: rs =>
    let f := (frame + u32sub r last) % 2^64
    f :: jack_frame_walk r f rs

/-- `arf_io.keyiter_jack_frame`, restricted to the key sequence it produces.
The input is the list of raw `uint32` `jack_frame` attribute values of the
entries, already sorted by their `jack_usec` wall-clock attribute (the
function sorts by `jack_usec` before walking; the claims supply the input in
that order).  The first entry's key is `uint64(0)`, and each later key adds
the wrapping `uint32` difference between consecutive raw values. -/
def keyiter_jack_frame (raws : List ℕ) : List ℕ :=
  match raws with
  | [] => []
  | r0 :: rest => 0 :: jack_frame_walk r0 0 rest

/-- C1 counterexample: for raw frame values `[4294967290, 4294967295, 2, 10]`
(in `jack_usec` order) the resolver's keys are `[0, 5, 8, 16]`, not the
claimed `[4294967290, 4294967295, 4294967297, 4294967305]`: the walk starts
at `uint64(0)`, not at the first raw value, and the wrapped step from
`4294967295` to `2` is `3`, not `2`. -/
theorem keyiter_jack_frame_counterexample :
    keyiter_jack_frame [4294967290, 4294967295, 2, 10] ≠
      [4294967290, 4294967295, 4294967297, 4294967305] := by
  decide

/-- C1 (corrected): for raw `uint32` frame values
`[4294967290, 4294967295, 2, 10]` in `jack_usec` order, the wrap-corrected
key sequence starts from `0` (not from the first raw value), each subsequent
key being the previous key plus the modulo-`2^32` difference of consecutive
raw values; it equals `[0, 5, 8, 16]` and is strictly increasing. -/
theorem keyiter_jack_frame_corrected :
    keyiter_jack_frame [4294967290, 4294967295, 2, 10] = [0, 5, 8, 16] ∧
      List.Pairwise (· < ·) (keyiter_jack_frame [4294967290, 4294967295, 2, 10]) := by
  constructor
  · decide
  · decide

/-- `arf_io.time_series_offsets(dset_time, dset_dt, start_time, stop_time,
nframes)`: index bounds of the requested window in a time series.  A
`start_time` of `0` and a `stop_time` of `None` — but also, by Python
falsiness, a `stop_time` of exactly `0.0` — leave the corresponding side
unbounded.  `int()` is applied after the `max`/`min` clamping. -/
def time_series_offsets (dset_time dset_dt start_time : ℚ) (stop_time : Option ℚ)
    (nframes : ℕ) : ℤ × ℤ :=
  (if start_time ≠ 0 then pyInt (max 0 ((start_time - dset_time) * dset_dt)) else 0,
    match stop_time with
    | some st =>
      if st ≠ 0 then pyInt (min (nframes : ℚ) ((st - dset_time) * dset_dt))
      else (nframes : ℤ)
    | none => (nframes : ℤ))

/-- Length of Python `xrange(a, b, s)` for a non-negative step (`s = 0` is
never reached by the reader: hdf5 chunk shapes are positive). -/
def pyRangeLen (a b : ℤ) (s : ℕ) : ℕ :=
  if b ≤ a ∨ s = 0 then 0 else ((b - a - 1).toNat / s + 1)

def pyRangeAux (s : ℕ) : ℤ → ℕ → List ℤ
  | _, 0 => []
  | a, k+1 => a :: pyRangeAux s (a + s) k

/-- Python `xrange(a, b, s)` with positive step `s`. -/
def pyRange (a b : ℤ) (s : ℕ) : List ℤ := pyRangeAux s a (pyRangeLen a b s)

theorem pyRange_empty {a b : ℤ} (s : ℕ) (h : b ≤ a) : pyRange a b s = [] := by
  simp [pyRange, pyRangeLen, h, pyRangeAux]

theorem pyRangeLen_step {a b : ℤ} {s : ℕ} (hs : 0 < s) (h : a < b) :
    pyRangeLen a b s = pyRangeLen (a + s) b s + 1 := by
  unfold pyRangeLen
  have hs' : s ≠ 0 := Nat.pos_iff_ne_zero.mp hs
  rw [if_neg (by push_neg; exact ⟨h, hs'⟩)]
  by_cases h2 : b ≤ a + (s : ℤ)
  · rw [if_pos (Or.inl h2)]
    have hlt : (b - a - 1).toNat < s := by omega
    rw [Nat.div_eq_of_lt hlt]
  · rw [if_neg (by push_neg; exact ⟨lt_of_not_le h2, hs'⟩)]
    have hx : (b - a - 1).toNat = (b - (a + s) - 1).toNat + s := by omega
    rw [hx, Nat.add_div_right _ hs]

theorem pyRange_cons {a b : ℤ} {s : ℕ} (hs : 0 < s) (h : a < b) :
    pyRange a b s = a :: pyRange (a + s) b s := by
  unfold pyRange
  rw [pyRangeLen_step hs h]
  rfl

theorem pyRangeAux_le {s : ℕ} :
    ∀ (k : ℕ) (a i : ℤ), i ∈ pyRangeAux s a k → a ≤ i := by
  intro k
  induction k with
  | zero => intro a i hi; simp [pyRangeAux] at hi
  | succ k ih =>
    intro a i hi
    rcases List.mem_cons.mp hi with h | h
    · omega
    · have := ih (a + s) i h
      omega

theorem pyRange_le {a b : ℤ} {s : ℕ} {i : ℤ} (hi : i ∈ pyRange a b s) : a ≤ i :=
  pyRangeAux_le _ a i hi

theorem pyRangeLen_shift (a b : ℤ) (s : ℕ) :
    pyRangeLen (a + s) b s = pyRangeLen a (b - s) s := by
  unfold pyRangeLen
  have harg : b - (a + (s : ℤ)) - 1 = (b - s) - a - 1 := by ring
  rw [harg]
  have hcond : (b ≤ a + (s : ℤ) ∨ s = 0) ↔ ((b - (s : ℤ)) ≤ a ∨ s = 0) := by
    constructor
    · rintro (h | h)
      · exact Or.inl (by omega)
      · exact Or.inr h
    · rintro (h | h)
      · exact Or.inl (by omega)
      · exact Or.inr h
  exact if_congr hcond rfl rfl

theorem pyRangeAux_shift {s : ℕ} :
    ∀ (k : ℕ) (a : ℤ), pyRangeAux s (a + s) k = (pyRangeAux s a k).map (· + (s : ℤ)) := by
  intro k
  induction k with
  | zero => intro a; rfl
  | succ k ih =>
    intro a
    show (a + s) :: pyRangeAux s (a + s + s) k = (a :: pyRangeAux s (a + s) k).map (· + (s : ℤ))
    rw [List.map_cons, ih (a + s)]

theorem pyRange_shift (a b : ℤ) (s : ℕ) :
    pyRange (a + s) b s = (pyRange a (b - s) s).map (· + (s : ℤ)) := by
  unfold pyRange
  rw [pyRangeLen_shift, pyRangeAux_shift]

/-- Python slice `data[i : i + len]` for a non-negative start index. -/
def listSlice (data : List ℚ) (i : ℤ) (len : ℕ) : List ℚ := (data.drop i.toNat).take len

/-- Concatenating the strided slices `data[i : i + bs]` for
`i ∈ xrange(0, len(data), bs)` reproduces `data` exactly. -/
theorem slices_flatten_aux (bs : ℕ) (hbs : 0 < bs) :
    ∀ (n : ℕ) (data : List ℚ), data.length = n →
      ((pyRange 0 data.length bs).map (fun i => listSlice data i bs)).flatten = data := by
  intro n
  induction n using Nat.strong_induction_on with
  | _ n ih =>
    intro data hlen
    by_cases h0 : data.length = 0
    · have hnil : data = [] := List.length_eq_zero.mp h0
      subst hnil
      simp only [List.length_nil, Nat.cast_zero, pyRange_empty bs (le_refl (0 : ℤ)),
        List.map_nil, List.flatten_nil]
    · have hpos : 0 < data.length := Nat.pos_of_ne_zero h0
      have hlt : (0 : ℤ) < (data.length : ℤ) := by exact_mod_cast hpos
      rw [pyRange_cons hbs hlt, List.map_cons, List.flatten_cons]
      have hslice0 : listSlice data 0 bs = data.take bs := by simp [listSlice]
      rw [hslice0, pyRange_shift 0 (data.length : ℤ) bs, List.map_map]
      have hslice : ∀ i ∈ pyRange 0 ((data.length : ℤ) - bs) bs,
          ((fun i => listSlice data i bs) ∘ (· + (bs : ℤ))) i =
            listSlice (data.drop bs) i bs := by
        intro i hi
        have hi0 : (0 : ℤ) ≤ i := pyRange_le hi
        have htn : (i + (bs : ℤ)).toNat = bs + i.toNat := by omega
        simp only [Function.comp, listSlice, htn, ← List.drop_drop]
      rw [List.map_congr_left hslice]
      by_cases hble : (data.length : ℤ) - bs ≤ 0
      · rw [pyRange_empty bs hble]
        simp only [List.map_nil, List.flatten_nil, List.append_nil]
        exact List.take_of_length_le (by omega)
      · have hlen' : (data.drop bs).length = data.length - bs := by simp
        have hcast : ((data.length : ℤ) - bs) = ((data.length - bs : ℕ) : ℤ) := by omega
        rw [hcast, ← hlen',
          ih (data.length - bs) (by omega) (data.drop bs) hlen']
        exact List.take_append_drop bs data

/-- Classification tags carried by a `DataBlock` (`mspikes.types.tag_set`). -/
inductive Tag
  | structure'
  | events
  | samples
deriving DecidableEq

/-- An ARF dataset inside an entry, with the attributes `arf_reader` reads:
its name (`id`), its `offset` attribute (default 0), its optional
`sampling_rate` attribute, its optional `units` attribute, its native hdf5
chunk length (`chunks[0]`, or the 1024 fallback for contiguous storage,
already resolved), and its contents. -/
structure Dset where
  id : String
  offsetAttr : ℚ
  dt : Option ℚ
  units : Option String
  chunkSize : ℕ
  data : List ℚ
deriving DecidableEq

/-- An ARF entry: its name, whether it carries a `jill_error` attribute, and
its child datasets.  The ordering key is carried alongside in the sorted
entry table (`arf_reader._entry_table`). -/
structure Entry where
  name : String
  jillError : Bool
  dsets : List Dset
deriving DecidableEq

/-- A `DataBlock` as emitted by `arf_reader.iterdatasets`: for structure
blocks `dt` is the file rate and `data` is empty; for dataset blocks `dt` is
the dataset rate and `data` references the dataset contents. -/
structure Block where
  id : String
  offset : ℚ
  dt : Option ℚ
  chunkSize : ℕ
  data : List ℚ
  tag : Tag
deriving DecidableEq

/-- A chunk as yielded by `arf_reader.__iter__`. -/
structure Chunk where
  id : String
  offset : ℚ
  data : List ℚ
  tag : Tag
deriving DecidableEq

/-- Dataset classification in `arf_reader.iterdatasets`: `events` when a
`units` attribute is present with value `s`, `samples` or `ms`, otherwise
`samples`. -/
def dsetTag (d : Dset) : Tag :=
  match d.units with
  | some u => if u = "s" ∨ u = "samples" ∨ u = "ms" then .events else .samples
  | none => .samples

/-- Extract the value of a `data_offset` call that cannot raise (used for the
structure-block offset, where `dset_time = 0` and `dset_dt = None`). -/
def okD : Except Unit ℚ → ℚ
  | .ok v => v
  | .error _ => 0

/-- The structure-block offset `data_offset(entry_time - time_0,
sampling_rate)` in closed form: the key difference itself when the file has
no rate, `long(diff) / long(rate)` when it has one. -/
def entry_off (d : ℚ) (rate : Option ℚ) : ℚ :=
  match rate with
  | none => d
  | some r => (pyInt d : ℚ) / (pyInt r : ℚ)

theorem data_offset_zero_none (d : ℚ) (rate : Option ℚ) :
    data_offset d rate 0 none = .ok (entry_off d rate) := by
  unfold data_offset entry_off
  cases rate with
  | none => simp
  | some r =>
    have h : pyRound 0 = 0 := by
      unfold pyRound
      norm_num
    simp [h]

theorem okD_data_offset_zero_none (d : ℚ) (rate : Option ℚ) :
    okD (data_offset d rate 0 none) = entry_off d rate := by
  rw [data_offset_zero_none]
  rfl

/-- The block `arf_reader.iterdatasets` produces for one dataset of the entry
with key `k` (file origin `t0`): `None` when the channel filter rejects the
dataset or its timebase is incompatible with the file's
(`data_offset` raises `ValueError`; the dataset is skipped with a warning). -/
def dsetBlock (rate : Option ℚ) (chanp : String → Bool) (t0 k : ℚ) (d : Dset) :
    Option Block :=
  if chanp d.id then
    match data_offset (k - t0) rate d.offsetAttr d.dt with
    | .error _ => none
    | .ok t => some ⟨d.id, t, d.dt, d.chunkSize, d.data, dsetTag d⟩
  else none

/-- The blocks `arf_reader.iterdatasets` yields for one entry of the sorted
entry table: nothing if the entry is marked with a `jill_error` and xruns are
not being used; otherwise a zero-length structure block followed by one block
per selected, timebase-compatible dataset. -/
def entrySeg (rate : Option ℚ) (useXruns : Bool) (chanp : String → Bool)
    (t0 : ℚ) (p : ℚ × Entry) : List Block :=
  if p.2.jillError && !useXruns then []
  else ⟨p.2.name, okD (data_offset (p.1 - t0) rate 0 none), rate, 0, [], .structure'⟩
    :: p.2.dsets.filterMap (dsetBlock rate chanp t0 p.1)

/-- `arf_reader.iterdatasets`: walk the (already sorted) entry table, with
`time_0` the first entry's key.  (On an empty table the source raises
`IndexError` reading `entries[0]`; no claim touches that case.) -/
def iterdatasets (rate : Option ℚ) (useXruns : Bool) (chanp : String → Bool)
    (entries : List (ℚ × Entry)) : List Block :=
  match entries with
  | [] => []
  | (k0, _) :: _ => entries.flatMap (entrySeg rate useXruns chanp k0)

/-- Python exceptions the `__iter__` loop can raise. -/
inductive PyErr
  | nameError
  | typeError
  | valueError
deriving DecidableEq

/-- State of one pass of `arf_reader.__iter__`: the per-channel cursor table
`channel_time` (a `defaultdict` whose default is zero), the chunks yielded so
far, the channel ids for which an overlap diagnostic was logged, and the
exception that aborted the pass, if any. -/
structure IterState where
  cp : String → ℚ
  chunks : List Chunk
  warned : List String
  err : Option PyErr

/-- The windowed chunk sequence the samples branch of `arf_reader.__iter__`
emits for one dataset block: indices from `time_series_offsets`, strided by
`blocksize`, each chunk's offset being `dset.offset + Fraction(i, int(dt))`. -/
def sampleChunks (b : Block) (dt : ℚ) (start_time : ℚ) (stop_time : Option ℚ)
    (blocksize : ℕ) : List Chunk :=
  (pyRange (time_series_offsets b.offset dt start_time stop_time b.data.length).1
      (time_series_offsets b.offset dt start_time stop_time b.data.length).2 blocksize).map
    (fun (i : ℤ) =>
      ⟨b.id, b.offset + (i : ℚ) / (pyInt dt : ℚ), listSlice b.data i blocksize, b.tag⟩)

/-- One step of `arf_reader.__iter__` on the next block from `iterdatasets`
(a no-op when a previous step already raised).

* `events` blocks: with no window set the block is passed through whole; with
  a window set the filtering branch reads the unbound name `dset_time` and
  raises `NameError`.
* `samples` blocks: the overlap check against the channel cursor logs a
  diagnostic (never raises); the windowed chunks are emitted; then the
  channel cursor is set to `data_offset(dset.offset, sampling_rate, nframes,
  dset.dt)`, which raises `ValueError` if the dataset timebase is
  incompatible.  A dataset with no rate raises `TypeError` (`int(None)`) as
  soon as an index or window bound is computed.
* other (structure) blocks are passed through. -/
def iterStep (rate : Option ℚ) (start_time : ℚ) (stop_time : Option ℚ)
    (blockchunks : ℕ) (st : IterState) (b : Block) : IterState :=
  if st.err.isSome then st
  else
    match b.tag with
    | .events =>
      if start_time ≠ 0 ∨ stop_time ≠ none then { st with err := some .nameError }
      else { st with chunks := st.chunks ++ [⟨b.id, b.offset, b.data, b.tag⟩] }
    | .samples =>
      let warned := if b.offset < st.cp b.id then st.warned ++ [b.id] else st.warned
      match b.dt with
      | some dt =>
        let cs := sampleChunks b dt start_time stop_time (blockchunks * b.chunkSize)
        match data_offset b.offset rate (b.data.length : ℚ) (some dt) with
        | .ok e =>
          { cp := fun id => if id = b.id then e else st.cp id,
            chunks := st.chunks ++ cs, warned := warned, err := none }
        | .error _ =>
          { st with chunks := st.chunks ++ cs, warned := warned, err := some .valueError }
      | none =>
        if start_time ≠ 0 ∨ stop_time ≠ none ∨ b.data.length ≠ 0 then
          { st with warned := warned, err := some .typeError }
        else
          match data_offset b.offset rate 0 none with
          | .ok e =>
            { cp := fun id => if id = b.id then e else st.cp id,
              chunks := st.chunks, warned := warned, err := none }
          | .error _ => { st with warned := warned, err := some .valueError }
    | .structure' => { st with chunks := st.chunks ++ [⟨b.id, b.offset, b.data, b.tag⟩] }

/-- A full pass of `arf_reader.__iter__` over a block sequence, from the
fresh cursor table. -/
def runIter (rate : Option ℚ) (start_time : ℚ) (stop_time : Option ℚ)
    (blockchunks : ℕ) (blocks : List Block) : IterState :=
  blocks.foldl (iterStep rate start_time stop_time blockchunks)
    ⟨fun _ => 0, [], [], none⟩

/-- The whole reader: `__iter__` consuming `iterdatasets`. -/
def arf_reader_run (rate : Option ℚ) (useXruns : Bool) (chanp : String → Bool)
    (start_time : ℚ) (stop_time : Option ℚ) (blockchunks : ℕ)
    (entries : List (ℚ × Entry)) : IterState :=
  runIter rate start_time stop_time blockchunks
    (iterdatasets rate useXruns chanp entries)

theorem sampleChunks_full_window (b : Block) (dt : ℚ) (bs : ℕ) (hbs : 0 < bs) :
    ((sampleChunks b dt 0 none bs).map Chunk.data).flatten = b.data := by
  unfold sampleChunks time_series_offsets
  simp only [ne_eq, not_true_eq_false, if_false, List.map_map]
  exact slices_flatten_aux bs hbs b.data.length b.data rfl

/-- C3 (confirmed): a sample-type dataset read with the unbounded window
(`start = 0`, `stop = None`): concatenating the data arrays of all chunks the
reader emits for it, in emission order, reproduces the dataset exactly, for
any positive block size (`blockchunks` times the native chunk size). -/
theorem reader_full_window_concat (rate : Option ℚ) (blockchunks : ℕ) (b : Block)
    (dt : ℚ) (htag : b.tag = .samples) (hdt : b.dt = some dt)
    (hbs : 0 < blockchunks * b.chunkSize) :
    (((runIter rate 0 none blockchunks [b]).chunks).map Chunk.data).flatten = b.data := by
  unfold runIter
  simp only [List.foldl_cons, List.foldl_nil]
  unfold iterStep
  simp only [Option.isSome_none, Bool.false_eq_true, if_false, htag, hdt]
  cases hdo : data_offset b.offset rate (b.data.length : ℚ) (some dt) with
  | ok e =>
    simp only [hdo, List.nil_append]
    exact sampleChunks_full_window b dt _ hbs
  | error u =>
    simp only [hdo, List.nil_append]
    exact sampleChunks_full_window b dt _ hbs

/-- Witness for C3's theorem: a three-sample dataset at rate 1, block size
`1 × 2`. -/
theorem reader_full_window_concat_witness :
    (((runIter none 0 none 1
        [⟨"a", 0, some 1, 2, [1, 2, 3], .samples⟩]).chunks).map Chunk.data).flatten
      = [1, 2, 3] :=
  reader_full_window_concat none 1 ⟨"a", 0, some 1, 2, [1, 2, 3], .samples⟩ 1
    rfl rfl (by norm_num)

theorem time_series_offsets_fst_nonneg (o dt st : ℚ) (sp : Option ℚ) (n : ℕ) :
    0 ≤ (time_series_offsets o dt st sp n).1 := by
  unfold time_series_offsets
  dsimp only
  by_cases h : st ≠ 0
  · rw [if_pos h]
    exact pyInt_nonneg (le_max_left _ _)
  · rw [if_neg h]

theorem time_series_offsets_snd_le (o dt st : ℚ) (sp : Option ℚ) (n : ℕ) :
    (time_series_offsets o dt st sp n).2 ≤ (n : ℤ) := by
  unfold time_series_offsets
  cases sp with
  | none => simp
  | some s =>
    dsimp only
    by_cases h : s ≠ 0
    · rw [if_pos h]
      exact pyInt_le_natCast n (min_le_left _ _)
    · rw [if_neg h]

theorem sampleChunks_of_empty_range (b : Block) (dt start_time : ℚ)
    (stop_time : Option ℚ) (bs : ℕ)
    (h : (time_series_offsets b.offset dt start_time stop_time b.data.length).2 ≤
      (time_series_offsets b.offset dt start_time stop_time b.data.length).1) :
    sampleChunks b dt start_time stop_time bs = [] := by
  unfold sampleChunks
  rw [pyRange_empty bs h]
  rfl

/-- C5 (corrected): windowing boundary behaviour of the chunk walker.
A 1000-sample dataset at 1000 Hz starting at offset 0 with window
`start = 0.5` begins at sample index exactly 500; a window whose (nonzero)
stop bound lies at or before the dataset's start emits zero chunks; and a
window whose start bound lies at or after the dataset's end emits zero
chunks.  (A stop bound of exactly `0` is excluded: Python falsiness makes
the code treat it as "no stop bound" — see the counterexample.) -/
theorem time_series_windowing :
    (time_series_offsets 0 1000 (1/2) none 1000).1 = 500
    ∧ (∀ (b : Block) (dt s start_time : ℚ) (bs : ℕ),
        0 < dt → s ≠ 0 → s ≤ b.offset →
        sampleChunks b dt start_time (some s) bs = [])
    ∧ (∀ (b : Block) (dt start_time : ℚ) (stop_time : Option ℚ) (bs : ℕ),
        0 < dt → 0 ≤ b.offset → 0 < b.data.length →
        b.offset + (b.data.length : ℚ) / dt ≤ start_time →
        sampleChunks b dt start_time stop_time bs = []) := by
  refine ⟨?_, ?_, ?_⟩
  · unfold time_series_offsets
    have h1 : ((1 : ℚ)/2 - 0) * 1000 = 500 := by norm_num
    have h2 : max (0 : ℚ) 500 = 500 := max_eq_right (by norm_num)
    have h3 : pyInt 500 = 500 := by
      have := pyInt_intCast 500
      simpa using this
    simp only [ne_eq, h1, h2, h3]
    norm_num
  · intro b dt s start_time bs hdt hs hso
    apply sampleChunks_of_empty_range
    have h2 : (time_series_offsets b.offset dt start_time (some s) b.data.length).2 ≤ 0 := by
      unfold time_series_offsets
      dsimp only
      rw [if_pos hs]
      apply pyInt_nonpos
      have hmul : (s - b.offset) * dt ≤ 0 :=
        mul_nonpos_of_nonpos_of_nonneg (by linarith) (le_of_lt hdt)
      exact le_trans (min_le_right _ _) hmul
    exact le_trans h2 (time_series_offsets_fst_nonneg _ _ _ _ _)
  · intro b dt start_time stop_time bs hdt ho hn hstart
    apply sampleChunks_of_empty_range
    have hlen : (0 : ℚ) < (b.data.length : ℚ) / dt := by positivity
    have hst : 0 < start_time := by linarith
    have hge : (b.data.length : ℚ) ≤ (start_time - b.offset) * dt := by
      have h1 : (b.data.length : ℚ) / dt ≤ start_time - b.offset := by linarith
      calc (b.data.length : ℚ) = ((b.data.length : ℚ) / dt) * dt := by
            field_simp
        _ ≤ (start_time - b.offset) * dt :=
            mul_le_mul_of_nonneg_right h1 (le_of_lt hdt)
    have h1 : ((b.data.length : ℕ) : ℤ) ≤
        (time_series_offsets b.offset dt start_time stop_time b.data.length).1 := by
      unfold time_series_offsets
      dsimp only
      rw [if_pos (ne_of_gt hst)]
      have hmax : (b.data.length : ℚ) ≤ max 0 ((start_time - b.offset) * dt) :=
        le_trans hge (le_max_right _ _)
      exact natCast_le_pyInt b.data.length hmax
    exact le_trans (time_series_offsets_snd_le _ _ _ _ _) h1

/-- Witness for C5's theorem: the 500 boundary, a window stopping at the
dataset start, and a window starting at the dataset end. -/
theorem time_series_windowing_witness :
    (time_series_offsets 0 1000 (1/2) none 1000).1 = 500
    ∧ sampleChunks ⟨"a", 1, some 1, 1, [0], .samples⟩ 1 0 (some 1) 1 = []
    ∧ sampleChunks ⟨"a", 0, some 1, 1, [0], .samples⟩ 1 2 none 1 = [] :=
  ⟨time_series_windowing.1,
    time_series_windowing.2.1 ⟨"a", 1, some 1, 1, [0], .samples⟩ 1 1 0 1
      (by norm_num) (by norm_num) (by norm_num),
    time_series_windowing.2.2 ⟨"a", 0, some 1, 1, [0], .samples⟩ 1 2 none 1
      (by norm_num) (by norm_num) (by norm_num) (by norm_num)⟩

/-- C5 counterexample: the window `[-1, 0]` lies entirely before a dataset
of 3 samples at rate 1000 starting at offset 1 — yet the walker emits its
chunks: a stop bound of exactly `0.0` is falsy in `if stop_time:`, so the
code treats it as "no stop bound" and reads to the end of the dataset. -/
theorem window_before_counterexample :
    sampleChunks ⟨"a", 1, some 1000, 1, [0, 0, 0], .samples⟩ 1000 (-1) (some 0) 1 ≠ [] := by
  unfold sampleChunks
  dsimp only
  have htso : time_series_offsets 1 1000 (-1) (some 0) (([0, 0, 0] : List ℚ).length) = (0, 3) := by
    unfold time_series_offsets
    dsimp only
    rw [if_pos (show (-1 : ℚ) ≠ 0 by norm_num), if_neg (show ¬((0 : ℚ) ≠ 0) by norm_num)]
    have h2 : max (0 : ℚ) ((-1 - 1) * 1000) = 0 := max_eq_left (by norm_num)
    rw [h2, pyInt_zero]
    norm_num
  rw [htso]
  have hr : pyRange 0 3 1 = [0, 1, 2] := by decide
  rw [hr]
  simp

/-- C2 (code bug): an event-type dataset iterated with a window set.  The
filtering branch of `arf_reader.__iter__` reads `dset_time`, a name that is
bound nowhere in the function or module, so the reader raises `NameError`
instead of emitting the filtered chunk.  (Additionally, the
`Node.send`/`yield` sit outside the `if idx.sum() > 0:` guard, so even with
the name fixed an all-outside-window dataset would be emitted whole rather
than suppressed.)  Here: timestamps `[10]`, window `start = 1`. -/
theorem events_window_name_error :
    (runIter none 1 none 64 [⟨"ev", 0, none, 0, [10], .events⟩]).err =
      some .nameError := by
  unfold runIter
  rw [List.foldl_cons, List.foldl_nil]
  unfold iterStep
  rw [if_neg (by simp)]
  dsimp only
  rw [if_pos (Or.inl one_ne_zero)]

theorem iterStep_samples_ok (rate : Option ℚ) (start_time : ℚ) (stop_time : Option ℚ)
    (bc : ℕ) (st : IterState) (i : String) (o d : ℚ) (c : ℕ) (dat : List ℚ) (e : ℚ)
    (hst : st.err = none)
    (hE : data_offset o rate (dat.length : ℚ) (some d) = .ok e) :
    iterStep rate start_time stop_time bc st ⟨i, o, some d, c, dat, .samples⟩ =
      ⟨fun id => if id = i then e else st.cp id,
        st.chunks ++
          sampleChunks ⟨i, o, some d, c, dat, .samples⟩ d start_time stop_time (bc * c),
        if o < st.cp i then st.warned ++ [i] else st.warned,
        none⟩ := by
  unfold iterStep
  rw [hst]
  rw [if_neg (by simp)]
  dsimp only
  rw [hE]

theorem iterStep_samples_error (rate : Option ℚ) (start_time : ℚ) (stop_time : Option ℚ)
    (bc : ℕ) (st : IterState) (i : String) (o d : ℚ) (c : ℕ) (dat : List ℚ)
    (hst : st.err = none)
    (hE : data_offset o rate (dat.length : ℚ) (some d) = .error ()) :
    iterStep rate start_time stop_time bc st ⟨i, o, some d, c, dat, .samples⟩ =
      ⟨st.cp,
        st.chunks ++
          sampleChunks ⟨i, o, some d, c, dat, .samples⟩ d start_time stop_time (bc * c),
        if o < st.cp i then st.warned ++ [i] else st.warned,
        some .valueError⟩ := by
  unfold iterStep
  rw [hst]
  rw [if_neg (by simp)]
  dsimp only
  rw [hE]

/-- C8 (corrected): two sample-type datasets on the same channel id, the
second starting before the recorded end `e1` of the first.  Whenever both
end-offset computations succeed, the reader logs exactly one overlap
diagnostic (for the second dataset), raises nothing, and the emitted chunks
are exactly the windowed chunk sequences of the two datasets — the overlap
check has no effect on them.  (When the second dataset's end-offset
computation fails, the diagnostic is still logged but the traversal then
raises `ValueError` — see the counterexample — so "never raises" does not
hold unconditionally.) -/
theorem overlap_diagnostic (rate : Option ℚ) (start_time : ℚ) (stop_time : Option ℚ)
    (bc : ℕ) (i : String) (o1 o2 d1 d2 e1 e2 : ℚ) (c1 c2 : ℕ) (dat1 dat2 : List ℚ)
    (h1 : 0 ≤ o1)
    (hE1 : data_offset o1 rate (dat1.length : ℚ) (some d1) = .ok e1)
    (hov : o2 < e1)
    (hE2 : data_offset o2 rate (dat2.length : ℚ) (some d2) = .ok e2) :
    (runIter rate start_time stop_time bc
        [⟨i, o1, some d1, c1, dat1, .samples⟩, ⟨i, o2, some d2, c2, dat2, .samples⟩]).warned
      = [i]
    ∧ (runIter rate start_time stop_time bc
        [⟨i, o1, some d1, c1, dat1, .samples⟩, ⟨i, o2, some d2, c2, dat2, .samples⟩]).err
      = none
    ∧ (runIter rate start_time stop_time bc
        [⟨i, o1, some d1, c1, dat1, .samples⟩, ⟨i, o2, some d2, c2, dat2, .samples⟩]).chunks
      = sampleChunks ⟨i, o1, some d1, c1, dat1, .samples⟩ d1 start_time stop_time (bc * c1)
        ++ sampleChunks ⟨i, o2, some d2, c2, dat2, .samples⟩ d2 start_time stop_time (bc * c2) := by
  unfold runIter
  rw [List.foldl_cons, List.foldl_cons, List.foldl_nil]
  rw [iterStep_samples_ok rate start_time stop_time bc _ i o1 d1 c1 dat1 e1 rfl hE1]
  rw [iterStep_samples_ok rate start_time stop_time bc _ i o2 d2 c2 dat2 e2 rfl hE2]
  dsimp only
  rw [if_neg (not_lt.mpr h1), if_pos rfl, if_pos hov]
  simp

/-- Witness for C8's theorem: rate 1, first dataset `[0, 0]` at offset 0
(end 2), second dataset `[0]` at offset 1/2 (same rate, end 3/2). -/
theorem overlap_diagnostic_witness :
    (runIter (some 1) 0 none 1
        [⟨"ch", 0, some 1, 1, [0, 0], .samples⟩,
          ⟨"ch", 1/2, some 1, 1, [0], .samples⟩]).warned = ["ch"]
    ∧ (runIter (some 1) 0 none 1
        [⟨"ch", 0, some 1, 1, [0, 0], .samples⟩,
          ⟨"ch", 1/2, some 1, 1, [0], .samples⟩]).err = none
    ∧ (runIter (some 1) 0 none 1
        [⟨"ch", 0, some 1, 1, [0, 0], .samples⟩,
          ⟨"ch", 1/2, some 1, 1, [0], .samples⟩]).chunks
      = sampleChunks ⟨"ch", 0, some 1, 1, [0, 0], .samples⟩ 1 0 none (1 * 1)
        ++ sampleChunks ⟨"ch", 1/2, some 1, 1, [0], .samples⟩ 1 0 none (1 * 1) := by
  have hE1 : data_offset 0 (some 1) ((([0, 0] : List ℚ)).length : ℚ) (some 1) = .ok 2 := by
    unfold data_offset pyInt
    norm_num
  have hE2 : data_offset (1/2) (some 1) ((([0] : List ℚ)).length : ℚ) (some 1) = .ok 1 := by
    unfold data_offset pyInt
    norm_num
  exact overlap_diagnostic (some 1) 0 none 1 "ch" 0 (1/2) 1 1 2 1 1 1 [0, 0] [0]
    (by norm_num) hE1 (by norm_num) hE2

/-- C8 counterexample: with file rate 1, a first dataset `[0, 0]` at offset 0
and rate 1 (recorded end 2) and a second dataset `[0]` on the same channel at
offset 1/2 but rate 3, the overlap diagnostic fires for the second dataset —
and then recording its end time calls
`data_offset(1/2, 1, 1, 3)`, whose sum `1/3` is not a whole number of
file-rate samples, so the traversal raises `ValueError`: the claim's "never
raises an exception" fails. -/
theorem overlap_raises_counterexample :
    (runIter (some 1) 0 none 1
        [⟨"ch", 0, some 1, 1, [0, 0], .samples⟩,
          ⟨"ch", 1/2, some 3, 1, [0], .samples⟩]).warned = ["ch"]
    ∧ (runIter (some 1) 0 none 1
        [⟨"ch", 0, some 1, 1, [0, 0], .samples⟩,
          ⟨"ch", 1/2, some 3, 1, [0], .samples⟩]).err = some .valueError := by
  have hE1 : data_offset 0 (some 1) ((([0, 0] : List ℚ)).length : ℚ) (some 1) = .ok 2 := by
    unfold data_offset pyInt
    norm_num
  have hE2 : data_offset (1/2) (some 1) ((([0] : List ℚ)).length : ℚ) (some 3) = .error () := by
    unfold data_offset pyInt
    norm_num
  unfold runIter
  rw [List.foldl_cons, List.foldl_cons, List.foldl_nil]
  rw [iterStep_samples_ok (some 1) 0 none 1 _ "ch" 0 1 1 [0, 0] 2 rfl hE1]
  rw [iterStep_samples_error (some 1) 0 none 1 _ "ch" (1/2) 3 1 [0] rfl hE2]
  dsimp only
  rw [if_neg (by norm_num : ¬((0 : ℚ) < 0)), if_pos rfl,
    if_pos (by norm_num : (1/2 : ℚ) < 2)]
  simp

theorem entry_off_zero (rate : Option ℚ) : entry_off 0 rate = 0 := by
  cases rate with
  | none => rfl
  | some r => simp [entry_off, pyInt_zero]

/-- C6 (corrected): the stream decomposes entrywise, and for every entry
that is traversed (not skipped for a `jill_error`) the first chunk emitted
for it is a zero-length `structure` block whose offset is
`data_offset(key - key0, rate)` — the key difference itself when the file
has no sampling rate, and `long(key - key0) / long(rate)` when it has one —
so the structure block of the first entry, when it is emitted, has offset
zero regardless of absolute file time. -/
theorem structure_block_offsets (rate : Option ℚ) (useXruns : Bool)
    (chanp : String → Bool) (k0 : ℚ) (e0 : Entry) (entries : List (ℚ × Entry))
    (hhead : entries.head? = some (k0, e0)) :
    iterdatasets rate useXruns chanp entries =
      entries.flatMap (entrySeg rate useXruns chanp k0)
    ∧ (∀ k e, (k, e) ∈ entries → (e.jillError && !useXruns) = false →
        entrySeg rate useXruns chanp k0 (k, e) =
          ⟨e.name, entry_off (k - k0) rate, rate, 0, [], .structure'⟩
            :: e.dsets.filterMap (dsetBlock rate chanp k0 k)
        ∧ (rate = none → entry_off (k - k0) rate = k - k0))
    ∧ ((e0.jillError && !useXruns) = false →
        (iterdatasets rate useXruns chanp entries).head? =
          some ⟨e0.name, 0, rate, 0, [], .structure'⟩) := by
  obtain ⟨tl, rfl⟩ : ∃ tl, entries = (k0, e0) :: tl := by
    cases entries with
    | nil => simp at hhead
    | cons h t =>
      rw [List.head?_cons] at hhead
      exact ⟨t, by rw [Option.some_inj.mp hhead]⟩
  refine ⟨rfl, ?_, ?_⟩
  · intro k e hmem hskip
    constructor
    · unfold entrySeg
      dsimp only
      rw [if_neg (by simp [hskip])]
      rw [okD_data_offset_zero_none]
    · intro hrate
      subst hrate
      rfl
  · intro hskip
    unfold iterdatasets
    dsimp only
    rw [List.flatMap_cons]
    unfold entrySeg
    dsimp only
    rw [if_neg (by simp [hskip])]
    rw [List.cons_append, List.head?_cons]
    rw [sub_self, okD_data_offset_zero_none, entry_off_zero]

/-- Witness for C6's theorem: one entry at key 0, no datasets, no file
rate. -/
theorem structure_block_offsets_witness :
    iterdatasets none false (fun _ => true) [((0 : ℚ), ⟨"e0", false, []⟩)] =
      [((0 : ℚ), (⟨"e0", false, []⟩ : Entry))].flatMap
        (entrySeg none false (fun _ => true) 0)
    ∧ (∀ k e, (k, e) ∈ [((0 : ℚ), (⟨"e0", false, []⟩ : Entry))] →
        (e.jillError && !false) = false →
        entrySeg none false (fun _ => true) 0 (k, e) =
          ⟨e.name, entry_off (k - 0) none, none, 0, [], .structure'⟩
            :: e.dsets.filterMap (dsetBlock none (fun _ => true) 0 k)
        ∧ (none = (none : Option ℚ) → entry_off (k - 0) none = k - 0))
    ∧ (((⟨"e0", false, []⟩ : Entry).jillError && !false) = false →
        (iterdatasets none false (fun _ => true)
            [((0 : ℚ), ⟨"e0", false, []⟩)]).head? =
          some ⟨(⟨"e0", false, []⟩ : Entry).name, 0, none, 0, [], .structure'⟩) :=
  structure_block_offsets none false (fun _ => true) 0 ⟨"e0", false, []⟩
    [((0 : ℚ), ⟨"e0", false, []⟩)] rfl

/-- C6 counterexample: with file sampling rate 2 and entry keys 0 and 4, the
second entry's structure block has offset `(4 - 0) / 2 = 2` seconds, not the
key difference `4` the claim states. -/
theorem structure_block_offsets_counterexample :
    (iterdatasets (some 2) false (fun _ => true)
        [((0 : ℚ), ⟨"e0", false, []⟩), ((4 : ℚ), ⟨"e1", false, []⟩)]).map Block.offset
      = [0, 2]
    ∧ (2 : ℚ) ≠ 4 - 0 := by
  constructor
  · unfold iterdatasets entrySeg
    dsimp only
    rw [List.flatMap_cons, List.flatMap_cons, List.flatMap_nil]
    dsimp only
    rw [if_neg (by simp), if_neg (by simp)]
    rw [okD_data_offset_zero_none, okD_data_offset_zero_none]
    unfold entry_off pyInt
    norm_num
  · norm_num

theorem entrySeg_skip_dset (rate : Option ℚ) (useXruns : Bool) (chanp : String → Bool)
    (t0 k : ℚ) (nm : String) (jerr : Bool) (ds1 ds2 : List Dset) (bad : Dset)
    (hch : chanp bad.id = true)
    (hbad : data_offset (k - t0) rate bad.offsetAttr bad.dt = .error ()) :
    entrySeg rate useXruns chanp t0 (k, ⟨nm, jerr, ds1 ++ bad :: ds2⟩) =
      entrySeg rate useXruns chanp t0 (k, ⟨nm, jerr, ds1 ++ ds2⟩) := by
  have hnone : dsetBlock rate chanp t0 k bad = none := by
    unfold dsetBlock
    rw [if_pos hch, hbad]
  unfold entrySeg
  dsimp only
  by_cases hskip : (jerr && !useXruns) = true
  · rw [if_pos hskip, if_pos hskip]
  · rw [if_neg hskip, if_neg hskip]
    congr 1
    rw [List.filterMap_append, List.filterMap_append, List.filterMap_cons, hnone]

/-- C7 (confirmed): a dataset whose declared rate is incompatible with the
file timebase (`data_offset` raises `ValueError` for it) is skipped after the
logged warning: the traversal's output is exactly the output with that
dataset removed — every other dataset and every other entry is unaffected —
and the enclosing entry's structure block is still emitted whenever the
entry itself is traversed; the incompatibility never aborts the
traversal. -/
theorem timebase_mismatch_skips_dataset (rate : Option ℚ) (useXruns : Bool)
    (chanp : String → Bool) (pre post : List (ℚ × Entry)) (k : ℚ) (nm : String)
    (jerr : Bool) (ds1 ds2 : List Dset) (bad : Dset) (hd : ℚ × Entry)
    (hhead : (pre ++ (k, ⟨nm, jerr, ds1 ++ bad :: ds2⟩) :: post).head? = some hd)
    (hch : chanp bad.id = true)
    (hbad : data_offset (k - hd.1) rate bad.offsetAttr bad.dt = .error ()) :
    iterdatasets rate useXruns chanp (pre ++ (k, ⟨nm, jerr, ds1 ++ bad :: ds2⟩) :: post) =
      iterdatasets rate useXruns chanp (pre ++ (k, ⟨nm, jerr, ds1 ++ ds2⟩) :: post)
    ∧ ((jerr && !useXruns) = false →
        (⟨nm, entry_off (k - hd.1) rate, rate, 0, [], .structure'⟩ : Block) ∈
          iterdatasets rate useXruns chanp
            (pre ++ (k, ⟨nm, jerr, ds1 ++ bad :: ds2⟩) :: post)) := by
  cases pre with
  | nil =>
    simp only [List.nil_append] at hhead ⊢
    rw [List.head?_cons] at hhead
    have hhd : hd = (k, ⟨nm, jerr, ds1 ++ bad :: ds2⟩) := (Option.some_inj.mp hhead).symm
    subst hhd
    have hbad' : data_offset (k - k) rate bad.offsetAttr bad.dt = .error () := hbad
    constructor
    · unfold iterdatasets
      dsimp only
      rw [List.flatMap_cons, List.flatMap_cons,
        entrySeg_skip_dset rate useXruns chanp k k nm jerr ds1 ds2 bad hch hbad']
    · intro hskip
      unfold iterdatasets
      dsimp only
      rw [List.flatMap_cons]
      apply List.mem_append_left
      unfold entrySeg
      dsimp only
      rw [if_neg (by simp [hskip]), okD_data_offset_zero_none]
      exact List.mem_cons_self _ _
  | cons p ps =>
    obtain ⟨pk, pe⟩ := p
    simp only [List.cons_append] at hhead ⊢
    rw [List.head?_cons] at hhead
    have hhd : hd = (pk, pe) := (Option.some_inj.mp hhead).symm
    subst hhd
    have hbad' : data_offset (k - pk) rate bad.offsetAttr bad.dt = .error () := hbad
    constructor
    · unfold iterdatasets
      dsimp only
      rw [List.flatMap_cons, List.flatMap_cons, List.flatMap_append, List.flatMap_append,
        List.flatMap_cons, List.flatMap_cons,
        entrySeg_skip_dset rate useXruns chanp pk k nm jerr ds1 ds2 bad hch hbad']
    · intro hskip
      unfold iterdatasets
      dsimp only
      apply List.mem_flatMap.mpr
      refine ⟨(k, ⟨nm, jerr, ds1 ++ bad :: ds2⟩), ?_, ?_⟩
      · exact List.mem_cons_of_mem (pk, pe)
          (List.mem_append_right ps (List.mem_cons_self _ _))
      · unfold entrySeg
        dsimp only
        rw [if_neg (by simp [hskip]), okD_data_offset_zero_none]
        exact List.mem_cons_self _ _

/-- Witness for C7's theorem: file rate 1000, a single entry at key 0 holding
only a dataset with rate 1500 and offset attribute 1 — `1/1500` of a second
is not a whole number of file-rate samples, so the dataset is dropped and
only the structure block remains. -/
theorem timebase_mismatch_skips_dataset_witness :
    iterdatasets (some 1000) false (fun _ => true)
        ([] ++ ((0 : ℚ), ⟨"e", false, [] ++ (⟨"b", 1, some 1500, none, 1, []⟩ : Dset) :: []⟩) :: []) =
      iterdatasets (some 1000) false (fun _ => true)
        ([] ++ ((0 : ℚ), ⟨"e", false, ([] : List Dset) ++ []⟩) :: [])
    ∧ ((false && !false) = false →
        (⟨"e", entry_off ((0 : ℚ) - ((0 : ℚ), (⟨"e", false,
            [] ++ (⟨"b", 1, some 1500, none, 1, []⟩ : Dset) :: []⟩ : Entry)).1) (some 1000),
          some 1000, 0, [], .structure'⟩ : Block) ∈
          iterdatasets (some 1000) false (fun _ => true)
            ([] ++ ((0 : ℚ), ⟨"e", false,
              [] ++ (⟨"b", 1, some 1500, none, 1, []⟩ : Dset) :: []⟩) :: [])) := by
  have hbad : data_offset ((0 : ℚ) - ((0 : ℚ), (⟨"e", false,
      [] ++ (⟨"b", 1, some 1500, none, 1, []⟩ : Dset) :: []⟩ : Entry)).1) (some 1000)
      (⟨"b", 1, some 1500, none, 1, []⟩ : Dset).offsetAttr
      (⟨"b", 1, some 1500, none, 1, []⟩ : Dset).dt = .error () := by
    unfold data_offset pyInt
    norm_num
  exact timebase_mismatch_skips_dataset (some 1000) false (fun _ => true) [] [] 0 "e"
    false [] [] ⟨"b", 1, some 1500, none, 1, []⟩ _ rfl rfl hbad

/-- One worker created by the `parallel` decorator's `defaultdict` factory
(`dispatcher.parallel`): its dispatch key, the heap address of the
`_targets` list it was handed at construction (`obj._targets =
self._targets`), and the chunks forwarded to its `send`. -/
structure PWorker (K C : Type) where
  key : K
  targetsRef : ℕ
  received : List C

/-- State of a `parallel`-decorated node: a heap of target lists (making
Python list aliasing explicit), the address of the wrapper's own `_targets`
list, and the worker table in creation order. -/
structure PState (K C T : Type) where
  store : List (List T)
  addr : ℕ
  workers : List (PWorker K C)

/-- `__init__` of the derived class: an empty shared `_targets` list and an
empty worker table. -/
def pInit (K C T : Type) : PState K C T := ⟨[[]], 0, []⟩

/-- `add_target` on the wrapper: append to the shared `_targets` list. -/
def add_target {K C T : Type} (s : PState K C T) (t : T) : PState K C T :=
  { s with store := s.store.set s.addr ((s.store.getD s.addr []) ++ [t]) }

/-- `send(chunk)` of the derived class: look `keyfun(chunk)` up in the
`defaultdict`; a missing key constructs a worker from the wrapper's
construction arguments and hands it the same `_targets` reference; the chunk
is forwarded to that worker's `send`. -/
def psend {K C T : Type} [DecidableEq K] (keyfun : C → K) (s : PState K C T)
    (c : C) : PState K C T :=
  if s.workers.any (fun w => w.key == keyfun c) then
    { s with workers := s.workers.map (fun w =>
        if w.key == keyfun c then { w with received := w.received ++ [c] } else w) }
  else
    { s with workers := s.workers ++ [⟨keyfun c, s.addr, [c]⟩] }

def psendAll {K C T : Type} [DecidableEq K] (keyfun : C → K) (s : PState K C T)
    (cs : List C) : PState K C T :=
  cs.foldl (psend keyfun) s

/-- C9 (confirmed): sending chunks with keys `[A, B, A, C]` to a `parallel`
wrapper leaves exactly 3 workers, one per distinct key, each created on the
first chunk bearing its key (creation order `[A, B, C]`, the repeated `A`
routed to the existing worker); and a target added before any chunk was sent
is reachable from all 3 workers through the one shared `_targets`
reference. -/
theorem parallel_dispatch (K T : Type) [DecidableEq K] (A B Cc : K) (t : T)
    (hAB : A ≠ B) (hAC : A ≠ Cc) (hBC : B ≠ Cc) :
    (psendAll id (add_target (pInit K K T) t) [A, B, A, Cc]).workers =
      [⟨A, 0, [A, A]⟩, ⟨B, 0, [B]⟩, ⟨Cc, 0, [Cc]⟩]
    ∧ (psendAll id (add_target (pInit K K T) t) [A, B, A, Cc]).workers.length = 3
    ∧ (∀ w ∈ (psendAll id (add_target (pInit K K T) t) [A, B, A, Cc]).workers,
        w.targetsRef = (psendAll id (add_target (pInit K K T) t) [A, B, A, Cc]).addr
        ∧ (psendAll id (add_target (pInit K K T) t) [A, B, A, Cc]).store.getD
            w.targetsRef [] = [t]) := by
  have hfull : psendAll id (add_target (pInit K K T) t) [A, B, A, Cc] =
      ⟨[[t]], 0, [⟨A, 0, [A, A]⟩, ⟨B, 0, [B]⟩, ⟨Cc, 0, [Cc]⟩]⟩ := by
    unfold psendAll add_target pInit
    simp only [List.foldl_cons, List.foldl_nil]
    unfold psend
    simp [hAB, hAC, hBC, Ne.symm hAB, Ne.symm hAC, Ne.symm hBC]
  refine ⟨by rw [hfull], by rw [hfull]; rfl, ?_⟩
  intro w hw
  rw [hfull] at hw ⊢
  simp only [List.mem_cons, List.not_mem_nil, or_false] at hw
  rcases hw with rfl | rfl | rfl <;> exact ⟨rfl, rfl⟩

/-- Witness for C9's theorem at `K = ℕ`, keys `0, 1, 2`, target `7`. -/
theorem parallel_dispatch_witness :
    (psendAll id (add_target (pInit ℕ ℕ ℕ) 7) [0, 1, 0, 2]).workers =
      [⟨0, 0, [0, 0]⟩, ⟨1, 0, [1]⟩, ⟨2, 0, [2]⟩]
    ∧ (psendAll id (add_target (pInit ℕ ℕ ℕ) 7) [0, 1, 0, 2]).workers.length = 3
    ∧ (∀ w ∈ (psendAll id (add_target (pInit ℕ ℕ ℕ) 7) [0, 1, 0, 2]).workers,
        w.targetsRef = (psendAll id (add_target (pInit ℕ ℕ ℕ) 7) [0, 1, 0, 2]).addr
        ∧ (psendAll id (add_target (pInit ℕ ℕ ℕ) 7) [0, 1, 0, 2]).store.getD
            w.targetsRef [] = [7]) :=
  parallel_dispatch ℕ ℕ 0 1 2 7 (by decide) (by decide) (by decide)

/-- A Python attribute value stored in the chunk-id registry: `None` or a
string. -/
inductive PyVal
  | pynone
  | pystr (s : String)
deriving DecidableEq

/-- The keyword properties passed to `register.add_id`. -/
abbrev Props : Type := List (String × PyVal)

/-- The module-level `_register` dict, as an insertion list (ids are unique
because `add_id` refuses duplicates). -/
abbrev Registry : Type := List (String × Props)

/-- `register.has_id`. -/
def has_id (reg : Registry) (id : String) : Bool :=
  (List.lookup id reg).isSome

/-- `register.get_properties`: the properties for `id`, or an empty dict if
`id` has not been registered. -/
def get_properties (reg : Registry) (id : String) : Props :=
  (List.lookup id reg).getD []

/-- `register.add_id`: raises `NameError` (without touching the registry) if
the id is already present; otherwise stores the supplied properties, first
replacing a `uuid` supplied as `None` by a freshly generated uuid string
(`fresh` stands for `str(uuid4())`). -/
def add_id (reg : Registry) (id : String) (props : Props) (fresh : String) :
    Except Unit Registry :=
  if has_id reg id then .error ()
  else
    .ok ((id,
      if List.lookup "uuid" props = some .pynone then
        props.map (fun kv => if kv.1 = "uuid" then (kv.1, .pystr fresh) else kv)
      else props) :: reg)

/-- C10 (corrected): registering an id that is already present raises
`NameError` and leaves the registry unchanged (`add_id` checks before
writing); after a successful `add_id`, `has_id` is true and
`get_properties` returns the supplied properties — except that a `uuid`
property supplied as `None` is replaced by a freshly generated uuid string;
`get_properties` of a never-registered id returns the empty dict. -/
theorem register_behaviour (reg : Registry) (id : String) (props : Props)
    (fresh : String) :
    (has_id reg id = true → add_id reg id props fresh = .error ())
    ∧ (has_id reg id = false →
        ∃ props', add_id reg id props fresh = .ok ((id, props') :: reg)
          ∧ has_id ((id, props') :: reg) id = true
          ∧ get_properties ((id, props') :: reg) id = props'
          ∧ (List.lookup "uuid" props ≠ some .pynone → props' = props)
          ∧ (List.lookup "uuid" props = some .pynone →
              props' = props.map
                (fun kv => if kv.1 = "uuid" then (kv.1, .pystr fresh) else kv)))
    ∧ (∀ id2, has_id reg id2 = false → get_properties reg id2 = []) := by
  refine ⟨?_, ?_, ?_⟩
  · intro h
    unfold add_id
    rw [if_pos h]
  · intro h
    refine ⟨if List.lookup "uuid" props = some .pynone then
        props.map (fun kv => if kv.1 = "uuid" then (kv.1, .pystr fresh) else kv)
      else props, ?_, ?_, ?_, ?_, ?_⟩
    · unfold add_id
      rw [if_neg (by simp [h])]
    · unfold has_id
      simp [List.lookup]
    · unfold get_properties
      simp [List.lookup]
    · intro hnu
      rw [if_neg hnu]
    · intro hu
      rw [if_pos hu]
  · intro id2 h2
    unfold get_properties
    unfold has_id at h2
    cases hlk : List.lookup id2 reg with
    | none => rfl
    | some v => rw [hlk] at h2; simp at h2

/-- Witness for C10's theorem: registry `[("a", [])]`, fresh id `"x"`. -/
theorem register_behaviour_witness :
    (has_id [("a", [])] "x" = true → add_id [("a", [])] "x" [] "u" = .error ())
    ∧ (has_id [("a", [])] "x" = false →
        ∃ props', add_id [("a", [])] "x" [] "u" = .ok (("x", props') :: [("a", [])])
          ∧ has_id (("x", props') :: [("a", [])]) "x" = true
          ∧ get_properties (("x", props') :: [("a", [])]) "x" = props'
          ∧ (List.lookup "uuid" ([] : Props) ≠ some .pynone → props' = [])
          ∧ (List.lookup "uuid" ([] : Props) = some .pynone →
              props' = List.map
                (fun kv => if kv.1 = "uuid" then (kv.1, .pystr "u") else kv) []))
    ∧ (∀ id2, has_id [("a", [])] id2 = false →
        get_properties [("a", [])] id2 = []) :=
  register_behaviour [("a", [])] "x" [] "u"

/-- C10 counterexample: supplying `uuid = None` makes `get_properties`
return a generated uuid in place of the supplied `None`, so "get_properties
returns the supplied properties" fails as stated. -/
theorem register_uuid_counterexample :
    add_id [] "x" [("uuid", .pynone)] "u-1" =
      .ok [("x", [("uuid", .pystr "u-1")])]
    ∧ get_properties [("x", [("uuid", .pystr "u-1")])] "x" ≠
      [("uuid", PyVal.pynone)] := by
  constructor
  · simp [add_id, has_id, List.lookup]
  · decide

